import Mathlib

/-!
Verification of the wasi-common host-runtime layer (crates/wasi-common/src/lib.rs)
against its design specification.

The embedding covers:
* the process-exit policy `maybe_exit_on_error` (from the source),
* the dual-ABI registration entry point `add_to_linker` (from the source),
* the `ResourceTable`, `poll_oneoff` scheduler entry and monotonic clock,
  whose implementations live in modules not present in the source tree and
  are therefore modelled from the specification's contracts.
-/

namespace WasiCommon

/-! ## Error model and process-exit policy (src/crates/wasi-common/src/lib.rs) -/

/-- Compile-time platform distinction, mirroring the cfg!(windows) / cfg!(unix)
tests in `maybe_exit_on_error`.  `other` stands for any target that is neither
unix nor windows (both cfg! tests false). -/
inductive Platform where
  | unix
  | windows
  | other
  deriving DecidableEq, Repr

/-- Shape of an `anyhow::Error` as `maybe_exit_on_error` discriminates it:
either it downcasts to `I32Exit` (the guest-requested exit, payload an i32
exit code), or it is a wasmtime `Trap`, or it is some other error value
(identified here by a tag so that "returned unchanged" is expressible). -/
inductive WasmError where
  | i32Exit (code : Int)
  | trap
  | ordinary (tag : Nat)
  deriving DecidableEq, Repr

/-- Observable outcome of `maybe_exit_on_error`: either the process terminates
with a given status (`process::exit`), or the error value is handed back to
the caller. -/
inductive ExitOutcome where
  | exited (status : Int)
  | returned (e : WasmError)
  deriving DecidableEq, Repr

/-- Value of `libc::SIGABRT` on the unix targets the crate supports. -/
def SIGABRT : Int := 6

/-- Shallow embedding of `maybe_exit_on_error` (lib.rs lines 164-199).
The source first downcasts to `I32Exit`; on windows a requested code >= 3 is
replaced by 1 (status 3 means abort there), otherwise the requested code is
forwarded.  A `Trap` exits with 128 + SIGABRT on unix and 3 on windows; on
any other target the trap branch falls through.  Every other error is
returned to the caller unchanged. -/
def maybe_exit_on_error (p : Platform) (e : WasmError) : ExitOutcome :=
  match e with
  | WasmError.i32Exit code =>
      if p = Platform.windows ∧ 3 ≤ code then ExitOutcome.exited 1
      else ExitOutcome.exited code
  | WasmError.trap =>
      match p with
      | Platform.unix => ExitOutcome.exited (128 + SIGABRT)
      | Platform.windows => ExitOutcome.exited 3
      | Platform.other => ExitOutcome.returned WasmError.trap
  | WasmError.ordinary tag => ExitOutcome.returned (WasmError.ordinary tag)

/-- C1 counterexample: on windows a guest-requested exit with code 3 terminates
the process with status 1, not with the requested code 3, so the claim that the
process exits "with exit status exactly c on every platform" is false. -/
theorem i32exit_windows_three_exits_one :
    maybe_exit_on_error Platform.windows (WasmError.i32Exit 3) = ExitOutcome.exited 1 ∧
    ExitOutcome.exited 1 ≠ ExitOutcome.exited 3 := by
  exact ⟨by decide, by decide⟩

/-- C1 (amended): a guest-requested exit with code c terminates the process
with status exactly c on every non-windows platform, and on windows when
c < 3; on windows with c >= 3 the process terminates with status 1 instead. -/
theorem maybe_exit_on_error_i32exit_status (p : Platform) (c : Int) :
    (p ≠ Platform.windows → maybe_exit_on_error p (WasmError.i32Exit c) = ExitOutcome.exited c) ∧
    (c < 3 → maybe_exit_on_error p (WasmError.i32Exit c) = ExitOutcome.exited c) ∧
    (p = Platform.windows → 3 ≤ c →
      maybe_exit_on_error p (WasmError.i32Exit c) = ExitOutcome.exited 1) := by
  refine ⟨?_, ?_, ?_⟩
  · intro hp
    simp [maybe_exit_on_error, hp]
  · intro hc
    have : ¬ (p = Platform.windows ∧ 3 ≤ c) := by
      rintro ⟨_, h3⟩; omega
    simp [maybe_exit_on_error, this]
  · intro hp hc
    simp [maybe_exit_on_error, hp, hc]

/-- Witness for C1 (amended) at concrete inputs: unix with code 7 exits 7,
unix with code 2 exits 2, windows with code 5 exits 1. -/
theorem maybe_exit_on_error_i32exit_status_witness :
    maybe_exit_on_error Platform.unix (WasmError.i32Exit 7) = ExitOutcome.exited 7 ∧
    maybe_exit_on_error Platform.unix (WasmError.i32Exit 2) = ExitOutcome.exited 2 ∧
    maybe_exit_on_error Platform.windows (WasmError.i32Exit 5) = ExitOutcome.exited 1 :=
  ⟨(maybe_exit_on_error_i32exit_status Platform.unix 7).1 (by decide),
   (maybe_exit_on_error_i32exit_status Platform.unix 2).2.1 (by decide),
   (maybe_exit_on_error_i32exit_status Platform.windows 5).2.2 rfl (by decide)⟩

/-- C2: a `Trap` error terminates the process with the platform-conventional
abnormal-termination status: 128 + SIGABRT on unix and 3 on windows; on those
two platforms the error is never returned to the caller (the outcome is an
`exited`, not a `returned`). -/
theorem maybe_exit_on_error_trap_aborts :
    maybe_exit_on_error Platform.unix WasmError.trap = ExitOutcome.exited (128 + SIGABRT) ∧
    maybe_exit_on_error Platform.windows WasmError.trap = ExitOutcome.exited 3 ∧
    (∀ e : WasmError, maybe_exit_on_error Platform.unix WasmError.trap ≠ ExitOutcome.returned e) ∧
    (∀ e : WasmError, maybe_exit_on_error Platform.windows WasmError.trap ≠ ExitOutcome.returned e) := by
  refine ⟨rfl, rfl, ?_, ?_⟩ <;> intro e h <;> exact ExitOutcome.noConfusion h

/-- C3: an error that is neither an `I32Exit` nor a `Trap` is returned to the
caller unchanged on every platform, and conversely a process exit can only be
caused by an `I32Exit` or a `Trap`. -/
theorem maybe_exit_on_error_ordinary_returned (p : Platform) (tag : Nat) :
    maybe_exit_on_error p (WasmError.ordinary tag) = ExitOutcome.returned (WasmError.ordinary tag) ∧
    (∀ (e : WasmError) (s : Int), maybe_exit_on_error p e = ExitOutcome.exited s →
      (∃ c, e = WasmError.i32Exit c) ∨ e = WasmError.trap) := by
  constructor
  · rfl
  · intro e s h
    cases e with
    | i32Exit c => exact Or.inl ⟨c, rfl⟩
    | trap => exact Or.inr rfl
    | ordinary t => exact absurd h (by exact ExitOutcome.noConfusion)

/-- Witness for C3 at concrete inputs: an ordinary error with tag 0 is returned
unchanged on unix, and the exit observed for `I32Exit 0` on unix indeed came
from an `I32Exit`. -/
theorem maybe_exit_on_error_ordinary_returned_witness :
    maybe_exit_on_error Platform.unix (WasmError.ordinary 0) =
      ExitOutcome.returned (WasmError.ordinary 0) ∧
    ((∃ c, WasmError.i32Exit 0 = WasmError.i32Exit c) ∨ WasmError.i32Exit 0 = WasmError.trap) :=
  ⟨(maybe_exit_on_error_ordinary_returned Platform.unix 0).1,
   (maybe_exit_on_error_ordinary_returned Platform.unix 0).2 (WasmError.i32Exit 0) 0 (by decide)⟩

/-- C4: on windows, a guest-requested exit with code c >= 3 terminates the
process with status 1 rather than c, and consequently a guest-requested exit
on windows is never reported with a status of 3 or higher. -/
theorem maybe_exit_on_error_windows_status_lt_three (c : Int) :
    (3 ≤ c → maybe_exit_on_error Platform.windows (WasmError.i32Exit c) = ExitOutcome.exited 1) ∧
    (∀ s : Int, maybe_exit_on_error Platform.windows (WasmError.i32Exit c) = ExitOutcome.exited s →
      s < 3) := by
  constructor
  · intro hc
    simp [maybe_exit_on_error, hc]
  · intro s hs
    by_cases hc : 3 ≤ c
    · simp [maybe_exit_on_error, hc] at hs
      omega
    · simp [maybe_exit_on_error, hc] at hs
      omega

/-- Witness for C4 at the concrete code 4: the process exits with status 1,
and that status is below 3. -/
theorem maybe_exit_on_error_windows_status_lt_three_witness :
    maybe_exit_on_error Platform.windows (WasmError.i32Exit 4) = ExitOutcome.exited 1 ∧
    (1 : Int) < 3 :=
  ⟨(maybe_exit_on_error_windows_status_lt_three 4).1 (by decide),
   (maybe_exit_on_error_windows_status_lt_three 4).2 1
     ((maybe_exit_on_error_windows_status_lt_three 4).1 (by decide))⟩

/-! ## Dual-ABI registration entry point (src/crates/wasi-common/src/lib.rs, define_wasi!) -/

/-- State of a `wasmtime::Linker<T>`: the set of host definitions registered so
far.  The payload type `D` abstracts over what one registered definition is
(the wiggle-generated function entries); the phantom parameter mirrors the
`Linker<T>` store type. -/
structure Linker (T : Type) (D : Type) where
  defs : List D

/-- Shallow embedding of `add_to_linker` as produced by the `define_wasi!`
macro (lib.rs lines 119-131).  The two wiggle-generated registration
functions `add_wasi_snapshot_preview1_to_linker` and
`add_wasi_unstable_to_linker` are external to the crate, so they appear as
parameters: each takes the linker state and the shared context accessor
`get_cx : T -> U` and either fails or returns the updated linker.  The `?`
operator in the source is sequencing in the `Except` monad: preview1 is
registered first, then preview0 on the resulting linker, and `Ok(())` is
produced only after both. -/
def add_to_linker {T U D E : Type}
    (addPreview1 : Linker T D → (T → U) → Except E (Linker T D))
    (addPreview0 : Linker T D → (T → U) → Except E (Linker T D))
    (linker : Linker T D) (get_cx : T → U) : Except E (Linker T D) :=
  match addPreview1 linker get_cx with
  | Except.error e => Except.error e
  | Except.ok l1 =>
      match addPreview0 l1 get_cx with
      | Except.error e => Except.error e
      | Except.ok l2 => Except.ok l2

/-- C5: `add_to_linker` succeeds exactly when the preview1 registration
succeeds on the given linker and the preview0 registration succeeds on the
linker that results from it; both registrations act on the same threaded
linker state and receive the same context accessor for the same context type
U, and the final linker is the one produced by the second registration. -/
theorem add_to_linker_ok_iff_both_ok {T U D E : Type}
    (addPreview1 addPreview0 : Linker T D → (T → U) → Except E (Linker T D))
    (linker : Linker T D) (get_cx : T → U) (result : Linker T D) :
    add_to_linker addPreview1 addPreview0 linker get_cx = Except.ok result ↔
      ∃ l1, addPreview1 linker get_cx = Except.ok l1 ∧
        addPreview0 l1 get_cx = Except.ok result := by
  unfold add_to_linker
  cases h1 : addPreview1 linker get_cx with
  | error e =>
      simp only [h1]
      constructor
      · intro h; exact absurd h (by exact Except.noConfusion)
      · rintro ⟨l1, hl1, _⟩; exact absurd hl1 (by exact Except.noConfusion)
  | ok l1 =>
      simp only [h1]
      cases h0 : addPreview0 l1 get_cx with
      | error e =>
          constructor
          · intro h; exact absurd h (by exact Except.noConfusion)
          · rintro ⟨l1x, hl1, hl0⟩
            cases hl1
            rw [h0] at hl0
            exact absurd hl0 (by exact Except.noConfusion)
      | ok l2 =>
          constructor
          · intro h
            cases h
            exact ⟨l1, rfl, h0⟩
          · rintro ⟨l1x, hl1, hl0⟩
            cases hl1
            rw [h0] at hl0
            cases hl0
            rfl

/-! ## ResourceTable (modelled from the spec; `pub mod table` is declared in
lib.rs but the module body is not in the source tree) -/

/-- Error kinds of the spec's ErrorModel taxonomy (section 7). -/
inductive ErrorKind where
  | badHandle
  | notSupported
  | invalidArgument
  | notFound
  | alreadyExists
  | permissionDenied
  | noSpace
  | interrupted
  | io
  | overflow
  | tooManyHandles
  deriving DecidableEq, Repr

/-- Modelled from the spec: a ResourceEntry's dynamically-typed boxed object.
The spec's capability enforcement is structural: the stored object either can
be viewed as a FileCapability or as a DirectoryCapability.  The payload
identifies the concrete backend resource, so that identity preservation is
expressible. -/
inductive Resource where
  | file (backendId : Nat)
  | dir (backendId : Nat)
  deriving DecidableEq, Repr

/-- Modelled from the spec: the ResourceTable, a handle-to-resource map owned
by one ExecutionContext.  Handles are non-negative integers; entries are
keyed by handle. -/
structure Table where
  entries : List (Nat × Resource)
  deriving DecidableEq, Repr

/-- Live handles of a table. -/
def Table.keys (t : Table) : List Nat :=
  t.entries.map Prod.fst

/-- The empty table (before the pre-bound standard-stream entries are added;
preopens are ordinary inserts per the spec). -/
def Table.empty : Table := ⟨[]⟩

/-- Modelled from the spec: handle allocation for `insert`, which must return
a fresh handle distinct from every currently-live one and never fails; we
take one strictly above every live handle. -/
def Table.freshHandle (t : Table) : Nat :=
  t.entries.foldr (fun p acc => max (p.1 + 1) acc) 0

/-- Modelled from the spec: `insert(resource) -> Handle` takes ownership of a
resource and returns a fresh unique handle together with the updated table.
It never fails. -/
def Table.insert (t : Table) (r : Resource) : Nat × Table :=
  (t.freshHandle, ⟨(t.freshHandle, r) :: t.entries⟩)

/-- Modelled from the spec: `remove(handle)` removes and returns ownership of
the entry, failing with BadHandle when the handle is unknown. -/
def Table.remove (t : Table) (h : Nat) : Except ErrorKind (Resource × Table) :=
  match t.entries.lookup h with
  | none => Except.error ErrorKind.badHandle
  | some r => Except.ok (r, ⟨t.entries.filter (fun p => p.1 != h)⟩)

/-- Modelled from the spec: `get` resolving a handle to its entry, failing
with BadHandle when the handle is unknown. -/
def Table.get_res (t : Table) (h : Nat) : Except ErrorKind Resource :=
  match t.entries.lookup h with
  | none => Except.error ErrorKind.badHandle
  | some r => Except.ok r

/-- Modelled from the spec: `get<FileCapability>`: a typed view of the stored
object when it implements the file capability; BadHandle when the handle is
unknown; the capability-mismatch error (NotSupported) when the entry exists
but is not file-like. -/
def Table.get_file (t : Table) (h : Nat) : Except ErrorKind Nat :=
  match t.entries.lookup h with
  | none => Except.error ErrorKind.badHandle
  | some (Resource.file f) => Except.ok f
  | some (Resource.dir _) => Except.error ErrorKind.notSupported

/-- Modelled from the spec: `get<DirectoryCapability>`, dual to
`Table.get_file`. -/
def Table.get_dir (t : Table) (h : Nat) : Except ErrorKind Nat :=
  match t.entries.lookup h with
  | none => Except.error ErrorKind.badHandle
  | some (Resource.dir d) => Except.ok d
  | some (Resource.file _) => Except.error ErrorKind.notSupported

/-- Modelled from the spec: `renumber(old, new)` reassigns a live entry to an
explicit handle value, overwriting and dropping any prior entry at the
destination; BadHandle when the old handle is unknown. -/
def Table.renumber (t : Table) (old dest : Nat) : Except ErrorKind Table :=
  match t.entries.lookup old with
  | none => Except.error ErrorKind.badHandle
  | some r => Except.ok ⟨(dest, r) :: t.entries.filter (fun p => p.1 != old && p.1 != dest)⟩

/-- Table operations for whole-history statements. -/
inductive TableOp where
  | insertOp (r : Resource)
  | removeOp (h : Nat)

/-- One step of table history: a failing remove leaves the table unchanged. -/
def Table.applyOp (t : Table) : TableOp → Table
  | TableOp.insertOp r => (t.insert r).2
  | TableOp.removeOp h =>
      match t.remove h with
      | Except.ok pr => pr.2
      | Except.error _ => t

/-- Table reached from the empty table by a sequence of insert/remove
operations. -/
def runOps (ops : List TableOp) : Table :=
  ops.foldl Table.applyOp Table.empty

theorem mem_keys_lt_fold (l : List (Nat × Resource)) (k : Nat)
    (hk : k ∈ l.map Prod.fst) :
    k < l.foldr (fun p acc => max (p.1 + 1) acc) 0 := by
  induction l with
  | nil => simp at hk
  | cons p l ih =>
      simp only [List.map_cons, List.mem_cons] at hk
      simp only [List.foldr_cons]
      rcases hk with hk | hk
      · subst hk
        exact lt_of_lt_of_le (Nat.lt_succ_self _) (le_max_left _ _)
      · exact lt_of_lt_of_le (ih hk) (le_max_right _ _)

theorem freshHandle_not_mem (t : Table) : t.freshHandle ∉ t.keys := by
  intro hmem
  exact absurd (mem_keys_lt_fold t.entries t.freshHandle hmem) (lt_irrefl _)

theorem keys_insert (t : Table) (r : Resource) :
    ((t.insert r).2).keys = t.freshHandle :: t.keys := rfl

theorem keys_filter_sublist (l : List (Nat × Resource)) (p : Nat × Resource → Bool) :
    ((l.filter p).map Prod.fst).Sublist (l.map Prod.fst) :=
  (List.filter_sublist l).map Prod.fst

theorem keys_applyOp_nodup (t : Table) (op : TableOp) (ht : t.keys.Nodup) :
    (t.applyOp op).keys.Nodup := by
  cases op with
  | insertOp r =>
      rw [Table.applyOp, keys_insert]
      exact List.nodup_cons.mpr ⟨freshHandle_not_mem t, ht⟩
  | removeOp h =>
      rw [Table.applyOp]
      cases hrm : t.remove h with
      | error e => exact ht
      | ok pr =>
          unfold Table.remove at hrm
          cases hl : t.entries.lookup h with
          | none => rw [hl] at hrm; exact absurd hrm (by exact Except.noConfusion)
          | some r =>
              rw [hl] at hrm
              cases hrm
              exact (keys_filter_sublist t.entries _).nodup ht

theorem keys_runOps_nodup (ops : List TableOp) : (runOps ops).keys.Nodup := by
  suffices hgen : ∀ (l : List TableOp) (t : Table), t.keys.Nodup →
      (l.foldl Table.applyOp t).keys.Nodup by
    exact hgen ops Table.empty List.nodup_nil
  intro l
  induction l with
  | nil => intro t ht; exact ht
  | cons op l ih => intro t ht; exact ih _ (keys_applyOp_nodup t op ht)

/-- C6: on every table reachable by a sequence of insert/remove operations,
insert succeeds (it is total) and returns a handle distinct from every
currently-live handle, and the live handles are pairwise unique; hence a
removed handle's numeric value can be taken again only by a later insert that
happens while no live entry holds it, never while the prior resource is still
live. -/
theorem table_insert_fresh_and_keys_nodup (ops : List TableOp) (r : Resource) :
    (((runOps ops).insert r).1 ∉ (runOps ops).keys) ∧
    ((((runOps ops).insert r).1 :: (runOps ops).keys).Nodup) := by
  refine ⟨freshHandle_not_mem (runOps ops), ?_⟩
  exact List.nodup_cons.mpr ⟨freshHandle_not_mem (runOps ops), keys_runOps_nodup ops⟩

/-- C7: resolving a handle that is absent from the table fails with BadHandle
for both typed views, and resolving a handle whose stored resource does not
implement the requested capability fails with the capability-mismatch error
NotSupported — it never produces a view of the wrong type (both functions are
total, so no panic is possible). -/
theorem table_get_badhandle_or_notsupported (t : Table) (h : Nat) :
    (t.entries.lookup h = none →
      t.get_file h = Except.error ErrorKind.badHandle ∧
      t.get_dir h = Except.error ErrorKind.badHandle) ∧
    (∀ d, t.entries.lookup h = some (Resource.dir d) →
      t.get_file h = Except.error ErrorKind.notSupported) ∧
    (∀ f, t.entries.lookup h = some (Resource.file f) →
      t.get_dir h = Except.error ErrorKind.notSupported) := by
  refine ⟨?_, ?_, ?_⟩
  · intro hl
    constructor
    · rw [Table.get_file, hl]
    · rw [Table.get_dir, hl]
  · intro d hl
    rw [Table.get_file, hl]
  · intro f hl
    rw [Table.get_dir, hl]

/-- Witness for C7: in the table holding only a directory at handle 1,
`get_file` of the unknown handle 2 fails with BadHandle and `get_file` of
handle 1 fails with NotSupported. -/
theorem table_get_badhandle_or_notsupported_witness :
    (Table.mk [(1, Resource.dir 0)]).get_file 2 = Except.error ErrorKind.badHandle ∧
    (Table.mk [(1, Resource.dir 0)]).get_file 1 = Except.error ErrorKind.notSupported :=
  ⟨((table_get_badhandle_or_notsupported (Table.mk [(1, Resource.dir 0)]) 2).1 rfl).1,
   (table_get_badhandle_or_notsupported (Table.mk [(1, Resource.dir 0)]) 1).2.1 0 rfl⟩
theorem insert_fst (t : Table) (r : Resource) : (t.insert r).1 = t.freshHandle := rfl

theorem insert_entries (t : Table) (r : Resource) :
    ((t.insert r).2).entries = (t.freshHandle, r) :: t.entries := rfl

theorem lookup_filter_out (l : List (Nat × Resource)) (a b : Nat) :
    List.lookup a (l.filter (fun p => p.1 != a && p.1 != b)) = none := by
  induction l with
  | nil => rfl
  | cons p l ih =>
      obtain ⟨k, v⟩ := p
      by_cases hka : k = a
      · simpa [List.filter_cons, hka] using ih
      · by_cases hkb : k = b
        · simpa [List.filter_cons, hkb, hka] using ih
        · have hne : a ≠ k := fun h => hka h.symm
          simpa [List.filter_cons, hka, hkb, List.lookup_cons, beq_false_of_ne hne] using ih

deriving instance DecidableEq for Except

/-- C8 counterexample: renumbering a freshly inserted resource to its own
handle (destination H equal to the original handle h0, here 0) keeps the
original handle valid: after `renumber(h0, h0)` succeeds, `get(h0)` still
returns the resource instead of failing with BadHandle, so the claim as
stated is false at H = h0. -/
theorem table_renumber_same_handle_keeps_old :
    ((Table.empty.insert (Resource.file 7)).2).renumber
        (Table.empty.insert (Resource.file 7)).1 (Table.empty.insert (Resource.file 7)).1
      = Except.ok (Table.mk [(0, Resource.file 7)]) ∧
    (Table.mk [(0, Resource.file 7)]).get_res (Table.empty.insert (Resource.file 7)).1
      = Except.ok (Resource.file 7) ∧
    (Table.mk [(0, Resource.file 7)]).get_res (Table.empty.insert (Resource.file 7)).1
      ≠ Except.error ErrorKind.badHandle :=
  ⟨by decide, by decide, by decide⟩

/-- C8 (amended): inserting a resource r (yielding handle h0) and then
renumbering it to a handle H different from h0 always succeeds, after which
`get(H)` returns a view of the very same resource r and `get(h0)` fails with
BadHandle; any prior entry at H is overwritten (dropped from the entry
list). -/
theorem table_renumber_roundtrip (t : Table) (r : Resource) (H : Nat)
    (hne : H ≠ t.freshHandle) :
    ∃ t2, ((t.insert r).2).renumber (t.insert r).1 H = Except.ok t2 ∧
      t2.get_res H = Except.ok r ∧
      t2.get_res (t.insert r).1 = Except.error ErrorKind.badHandle := by
  have hlook : ((t.insert r).2).entries.lookup (t.insert r).1 = some r := by
    rw [insert_entries, insert_fst]
    simp [List.lookup_cons]
  refine ⟨⟨(H, r) :: ((t.insert r).2).entries.filter
      (fun p => p.1 != (t.insert r).1 && p.1 != H)⟩, ?_, ?_, ?_⟩
  · simp only [Table.renumber, hlook]
  · simp [Table.get_res, List.lookup_cons]
  · have hne2 : (t.insert r).1 ≠ H := fun h => hne h.symm
    simp [Table.get_res, List.lookup_cons, beq_false_of_ne hne2, lookup_filter_out]

/-- Witness for C8 (amended): inserting file 7 into the empty table yields
handle 0; renumbering it to the distinct handle 5 succeeds, `get(5)` returns
the same resource, and `get(0)` fails with BadHandle. -/
theorem table_renumber_roundtrip_witness :
    ∃ t2, ((Table.empty.insert (Resource.file 7)).2).renumber
        (Table.empty.insert (Resource.file 7)).1 5 = Except.ok t2 ∧
      t2.get_res 5 = Except.ok (Resource.file 7) ∧
      t2.get_res (Table.empty.insert (Resource.file 7)).1 = Except.error ErrorKind.badHandle :=
  table_renumber_roundtrip Table.empty (Resource.file 7) 5 (by decide)

/-! ## Scheduler poll_oneoff (modelled from the spec; `pub mod sched` is
declared in lib.rs but the module body is not in the source tree) -/

/-- Modelled from the spec: one `poll_oneoff` subscription, either "wait on a
handle becoming readable/writable" or "wait until the clock reaches a
deadline". -/
inductive Subscription where
  | fdRead (h : Nat)
  | fdWrite (h : Nat)
  | clockTimeout (deadline : Nat)
  deriving DecidableEq, Repr

/-- Modelled from the spec: the per-subscription outcome reported in the
event set: ready, not yet ready, or failed with an error kind specific to
that subscription. -/
inductive EventResult where
  | ready
  | notReady
  | failed (e : ErrorKind)
  deriving DecidableEq, Repr

/-- Modelled from the spec: evaluation of one subscription against the table
and the current instant.  A subscription referencing a handle absent from the
table fails with BadHandle; known handles report their level-triggered
readiness; a clock subscription is ready once the deadline has been
reached. -/
def subResult (t : Table) (now : Nat) (readReady writeReady : Nat → Bool) :
    Subscription → EventResult
  | Subscription.fdRead h =>
      match t.entries.lookup h with
      | none => EventResult.failed ErrorKind.badHandle
      | some _ => if readReady h then EventResult.ready else EventResult.notReady
  | Subscription.fdWrite h =>
      match t.entries.lookup h with
      | none => EventResult.failed ErrorKind.badHandle
      | some _ => if writeReady h then EventResult.ready else EventResult.notReady
  | Subscription.clockTimeout d =>
      if d ≤ now then EventResult.ready else EventResult.notReady

/-- Modelled from the spec: `poll_oneoff(subscriptions) -> events`.  An empty
subscription set is an InvalidArgument error carrying no events; otherwise
every subscription is evaluated independently and the full set of results is
reported in one return.  (Blocking until readiness is a real-time aspect of
the embedding; the claim under verification concerns the empty-set error and
the per-subscription BadHandle independence, both visible in this one-shot
evaluation.) -/
def poll_oneoff (t : Table) (now : Nat) (readReady writeReady : Nat → Bool)
    (subs : List Subscription) : Except ErrorKind (List EventResult) :=
  if subs.isEmpty then Except.error ErrorKind.invalidArgument
  else Except.ok (subs.map (subResult t now readReady writeReady))

/-- C9: `poll_oneoff` on an empty subscription set fails with InvalidArgument
and produces no events; on a non-empty set it reports one result per
subscription, each subscription's result depending only on that subscription,
and a subscription referencing an unknown handle fails with BadHandle while
every other subscription's result is still reported. -/
theorem poll_oneoff_empty_and_badhandle (t : Table) (now : Nat)
    (readReady writeReady : Nat → Bool) (subs : List Subscription) :
    (subs = [] → poll_oneoff t now readReady writeReady subs
        = Except.error ErrorKind.invalidArgument) ∧
    (subs ≠ [] → ∃ evs, poll_oneoff t now readReady writeReady subs = Except.ok evs ∧
      evs.length = subs.length ∧
      (∀ (i : Nat) (s : Subscription), subs[i]? = some s →
        evs[i]? = some (subResult t now readReady writeReady s)) ∧
      (∀ (i fd : Nat), subs[i]? = some (Subscription.fdRead fd) →
        t.entries.lookup fd = none →
        evs[i]? = some (EventResult.failed ErrorKind.badHandle)) ∧
      (∀ (i fd : Nat), subs[i]? = some (Subscription.fdWrite fd) →
        t.entries.lookup fd = none →
        evs[i]? = some (EventResult.failed ErrorKind.badHandle))) := by
  constructor
  · intro hsubs
    subst hsubs
    rfl
  · intro hsubs
    have hne : subs.isEmpty = false := by
      cases subs with
      | nil => exact absurd rfl hsubs
      | cons a l => rfl
    refine ⟨subs.map (subResult t now readReady writeReady), ?_, ?_, ?_, ?_, ?_⟩
    · simp [poll_oneoff, hne]
    · simp
    · intro i s hi
      rw [List.getElem?_map, hi]
      rfl
    · intro i fd hi hl
      rw [List.getElem?_map, hi]
      simp [subResult, hl]
    · intro i fd hi hl
      rw [List.getElem?_map, hi]
      simp [subResult, hl]

/-- Witness for C9: the empty set fails with InvalidArgument, and for the set
holding a read subscription on the unknown handle 3 and a clock subscription
whose deadline 0 has passed at instant 5, the first result is the BadHandle
failure and the second is still reported (ready). -/
theorem poll_oneoff_empty_and_badhandle_witness :
    poll_oneoff Table.empty 5 (fun _ => false) (fun _ => false) []
      = Except.error ErrorKind.invalidArgument ∧
    ∃ evs, poll_oneoff Table.empty 5 (fun _ => false) (fun _ => false)
        [Subscription.fdRead 3, Subscription.clockTimeout 0] = Except.ok evs ∧
      evs[0]? = some (EventResult.failed ErrorKind.badHandle) ∧
      evs[1]? = some EventResult.ready := by
  constructor
  · exact (poll_oneoff_empty_and_badhandle Table.empty 5
      (fun _ => false) (fun _ => false) []).1 rfl
  · obtain ⟨evs, hok, hlen, hall, hbadr, hbadw⟩ :=
      (poll_oneoff_empty_and_badhandle Table.empty 5 (fun _ => false) (fun _ => false)
        [Subscription.fdRead 3, Subscription.clockTimeout 0]).2 (by simp)
    refine ⟨evs, hok, hbadr 0 3 rfl rfl, ?_⟩
    rw [hall 1 (Subscription.clockTimeout 0) rfl]
    decide

/-! ## Monotonic clock (modelled from the spec; `pub mod clocks` is declared
in lib.rs but the module body is not in the source tree) -/

/-- Modelled from the spec: the state a WasiMonotonicClock keeps within one
ExecutionContext to uphold its hard never-regress invariant: the last instant
it handed out. -/
structure MonotonicClockState where
  lastReading : Nat
  deriving DecidableEq, Repr

/-- Modelled from the spec: taking one monotonic reading.  The clock samples
the underlying host time source and returns an instant that is clamped to be
no earlier than the last instant it returned, which is what "must never
regress within one ExecutionContext's lifetime" demands even of an imprecise
or virtual host source. -/
def MonotonicClockState.read (st : MonotonicClockState) (sample : Nat) :
    Nat × MonotonicClockState :=
  (max st.lastReading sample, ⟨max st.lastReading sample⟩)

/-- Clock state after n readings against the host sample stream `samples`,
starting from the context-creation state. -/
def clockState (samples : Nat → Nat) : Nat → MonotonicClockState
  | 0 => ⟨0⟩
  | n + 1 => ((clockState samples n).read (samples n)).2

/-- The instant returned by the reading taken at wall-order position n. -/
def monotonicReading (samples : Nat → Nat) (n : Nat) : Nat :=
  ((clockState samples n).read (samples n)).1

/-- C10: within one ExecutionContext the monotonic clock never regresses: for
any host sample stream (even one that jumps backwards) and any two readings
taken at wall-order positions t1 < t2, the instant returned at t1 is at most
the instant returned at t2. -/
theorem monotonic_clock_never_regresses (samples : Nat → Nat) (t1 t2 : Nat)
    (h : t1 < t2) :
    monotonicReading samples t1 ≤ monotonicReading samples t2 := by
  have step : ∀ n, (clockState samples n).lastReading
      ≤ (clockState samples (n + 1)).lastReading := by
    intro n
    show (clockState samples n).lastReading
      ≤ max (clockState samples n).lastReading (samples n)
    exact le_max_left _ _
  have mono : Monotone (fun n => (clockState samples n).lastReading) :=
    monotone_nat_of_le_succ step
  show (clockState samples (t1 + 1)).lastReading ≤ (clockState samples (t2 + 1)).lastReading
  exact mono (Nat.succ_le_succ (Nat.le_of_lt h))

/-- Witness for C10: against the regressing host sample stream 10 - n, the
reading at position 0 does not exceed the reading at position 1. -/
theorem monotonic_clock_never_regresses_witness :
    monotonicReading (fun n => 10 - n) 0 ≤ monotonicReading (fun n => 10 - n) 1 :=
  monotonic_clock_never_regresses (fun n => 10 - n) 0 1 (by decide)

end WasiCommon
